import Mathlib

/-!
Shallow embedding of the iDDS reconciliation-engine core: the ORM repository
operations over Transform and Processing rows (src/main/lib/idds/orm), and the
ATLAS stage-in work implementation (src/atlas/lib/idds/atlas/workflow).
Database tables are lists of rows, time is an integer, Python dictionaries are
association lists, and fallible Python code returns Except values.
-/

namespace IddsModel

/-- Modelled from the spec: the enumeration names of section 3 of the spec
(the module idds.common.constants is not part of src). Numeric codes are
implementation defined, so only the symbolic names are modelled. -/
inductive TransformStatus
  | New | Transforming | Finished | SubFinished | Failed | Lost | Cancelled | ToCancel | Suspended
  deriving DecidableEq

/-- Modelled from the spec: ProcessingStatus enumeration of section 3. -/
inductive ProcessingStatus
  | New | Submitting | Submitted | Running | Finished | Failed | Lost | Cancelled
  deriving DecidableEq

/-- Modelled from the spec: ContentStatus enumeration of section 3. -/
inductive ContentStatus
  | New | Processing | Available | Failed | Lost | Mapped
  deriving DecidableEq

/-- Modelled from the spec: the Python Enum member attribute `name` used by
get_status_statistics. -/
def ContentStatus.name : ContentStatus → String
  | .New => "New"
  | .Processing => "Processing"
  | .Available => "Available"
  | .Failed => "Failed"
  | .Lost => "Lost"
  | .Mapped => "Mapped"

/-- Modelled from the spec: ContentType enumeration of section 3. -/
inductive ContentType
  | File | Event
  deriving DecidableEq

/-- Modelled from the spec: CollectionStatus enumeration of section 3. -/
inductive CollectionStatus
  | Open | Closed | SubClosed | Failed | Deleted
  deriving DecidableEq

/-- Modelled from the spec: WorkStatus values used by syn_work_status. -/
inductive WorkStatus
  | New | Transforming | Finished | SubFinished | Failed | Cancelled
  deriving DecidableEq

/-- Modelled from the spec: GranularityType enumeration of section 3. -/
inductive GranularityType
  | File | Event
  deriving DecidableEq

/-- Modelled from the spec: transform kinds, with StageIn the specified one. -/
inductive TransformType
  | StageIn | Other
  deriving DecidableEq

/-- Modelled from the spec: locking column values Idle and Locking of the
Transform table. -/
inductive TransformLocking
  | Idle | Locking
  deriving DecidableEq

/-- Modelled from the spec: locking column values Idle and Locking of the
Processing table. -/
inductive ProcessingLocking
  | Idle | Locking
  deriving DecidableEq

/-- Modelled from the spec: the error taxonomy of idds.common.exceptions as
used by the repository layer. -/
inductive IddsErr
  | NoObject | DuplicatedObject | DatabaseException
  deriving DecidableEq

end IddsModel

namespace Orm

open IddsModel

/-- Row of the Transform table (models.Transform), with the columns the
claims touch. Times are integers (seconds). -/
structure TransformRow where
  transform_id : Nat
  transform_type : TransformType
  transform_tag : Option String
  priority : Nat
  status : TransformStatus
  substatus : Option TransformStatus
  locking : TransformLocking
  retries : Nat
  expired_at : Option Int
  transform_metadata : Option String
  next_poll_at : Int
  updated_at : Int
  finished_at : Option Int
  deriving DecidableEq

/-- Row of the Processing table (models.Processing). -/
structure ProcessingRow where
  processing_id : Nat
  transform_id : Nat
  status : ProcessingStatus
  substatus : ProcessingStatus
  locking : ProcessingLocking
  submitter : Option String
  granularity : Option Nat
  granularity_type : GranularityType
  expired_at : Option Int
  processing_metadata : Option String
  output_metadata : Option String
  next_poll_at : Int
  updated_at : Int
  finished_at : Option Int
  deriving DecidableEq

/-- The Transform table with the id sequence of the database. -/
structure TransformTable where
  rows : List TransformRow
  next_transform_id : Nat
  deriving DecidableEq

/-- The Processing table with the id sequence of the database. -/
structure ProcessingTable where
  rows : List ProcessingRow
  next_processing_id : Nat
  deriving DecidableEq

/-- Arguments of orm.processings.add_processing; substatus is not a
parameter of add_processing, so create_processing receives its default
value ProcessingStatus.New. -/
structure ProcessingAttrs where
  transform_id : Nat
  status : ProcessingStatus := .New
  locking : ProcessingLocking := .Idle
  submitter : Option String := none
  granularity : Option Nat := none
  granularity_type : GranularityType := .File
  expired_at : Option Int := none
  processing_metadata : Option String := none
  output_metadata : Option String := none

/-- orm.processings.create_processing: builds the new row. add_processing
does not pass substatus, so it stays at the default ProcessingStatus.New.
The row id and the timestamps are filled in by save, modelled here by the
pid and now arguments. -/
def create_processing (a : ProcessingAttrs) (now : Int) (pid : Nat) : ProcessingRow :=
  { processing_id := pid
    transform_id := a.transform_id
    status := a.status
    substatus := ProcessingStatus.New
    locking := a.locking
    submitter := a.submitter
    granularity := a.granularity
    granularity_type := a.granularity_type
    expired_at := a.expired_at
    processing_metadata := a.processing_metadata
    output_metadata := a.output_metadata
    next_poll_at := now
    updated_at := now
    finished_at := none }

/-- orm.processings.add_processing: create the row, save it (the database
assigns the next id from the sequence), and return the id. -/
def add_processing (db : ProcessingTable) (a : ProcessingAttrs) (now : Int) :
    Nat × ProcessingTable :=
  let row := create_processing a now db.next_processing_id
  (db.next_processing_id,
   { rows := db.rows ++ [row], next_processing_id := db.next_processing_id + 1 })

/-- orm.processings.get_processing: query.first() on the rows filtered by
processing_id; when no row matches, first() yields None and the function
returns None (the NoResultFound handler is unreachable because first()
does not raise it). -/
def get_processing (db : ProcessingTable) (processing_id : Nat) :
    Except IddsErr (Option ProcessingRow) :=
  .ok ((db.rows.filter (fun r => decide (r.processing_id = processing_id))).head?)

/-- orm.transforms.get_transform: query.first() on the rows filtered by
transform_id; when no row matches it returns None, like get_processing. -/
def get_transform (db : TransformTable) (transform_id : Nat) :
    Except IddsErr (Option TransformRow) :=
  .ok ((db.rows.filter (fun r => decide (r.transform_id = transform_id))).head?)

/-- The status-list normalization shared by the by-status queries: a single
status is duplicated before being handed to the SQL IN clause. -/
def normalize_status {α : Type} (l : List α) : List α :=
  if l.length = 1 then l ++ l else l

/-- ORDER BY updated_at ASC, priority DESC of get_transforms_by_status as a
boolean order on rows. -/
def transform_order (a b : TransformRow) : Bool :=
  decide (a.updated_at < b.updated_at) ||
    (decide (a.updated_at = b.updated_at) && decide (b.priority ≤ a.priority))

/-- ORDER BY updated_at ASC of get_processings_by_status as a boolean order
on rows. -/
def processing_order (a b : ProcessingRow) : Bool :=
  decide (a.updated_at ≤ b.updated_at)

/-- The optional updated_at filter shared by the by-status queries: applied
only when a period is given and truthy (a zero period is falsy in Python
and skips the filter). -/
def opt_period_filter {α : Type} (updated : α → Int) (period : Option Int) (now : Int)
    (q : List α) : List α :=
  match period with
  | some p => if p ≠ 0 then q.filter (fun r => decide (updated r < now - p)) else q
  | none => q

/-- The optional LIMIT clause of the by-status queries: applied only when
bulk_size is given and truthy. -/
def opt_limit {α : Type} (bulk_size : Option Nat) (q : List α) : List α :=
  match bulk_size with
  | some b => if b ≠ 0 then q.take b else q
  | none => q

/-- orm.transforms.get_transforms_by_status: filter by status membership and
next_poll_at, optionally by period and by locking, sort by updated_at
ascending then priority descending, and apply the bulk_size limit. -/
def get_transforms_by_status (db : TransformTable) (status : List TransformStatus)
    (period : Option Int) (locking : Bool) (bulk_size : Option Nat) (now : Int) :
    List TransformRow :=
  let st := normalize_status status
  let q := db.rows.filter (fun r => decide (r.status ∈ st) && decide (r.next_poll_at < now))
  let q := opt_period_filter (fun r => r.updated_at) period now q
  let q := if locking then q.filter (fun r => decide (r.locking = TransformLocking.Idle)) else q
  let q := q.mergeSort transform_order
  opt_limit bulk_size q

/-- orm.processings.get_processings_by_status: filter by status membership
and next_poll_at, optionally by period, locking and submitter (Python
truthiness: an empty submitter string skips the filter), sort by updated_at
ascending, and apply the bulk_size limit. -/
def get_processings_by_status (db : ProcessingTable) (status : List ProcessingStatus)
    (period : Option Int) (locking : Bool) (bulk_size : Option Nat)
    (submitter : Option String) (now : Int) : List ProcessingRow :=
  let st := normalize_status status
  let q := db.rows.filter (fun r => decide (r.status ∈ st) && decide (r.next_poll_at < now))
  let q := opt_period_filter (fun r => r.updated_at) period now q
  let q := if locking then q.filter (fun r => decide (r.locking = ProcessingLocking.Idle)) else q
  let q : List ProcessingRow := match submitter with
    | some s => if s ≠ "" then q.filter (fun r => decide (r.submitter = some s)) else q
    | none => q
  let q := q.mergeSort processing_order
  opt_limit bulk_size q

/-- Parameters dictionary accepted by update_processing: a field is some v
exactly when the corresponding key is present in the dictionary. -/
structure ProcessingUpdParams where
  status : Option ProcessingStatus := none
  substatus : Option ProcessingStatus := none
  locking : Option ProcessingLocking := none
  next_poll_at : Option Int := none
  expired_at : Option (Option Int) := none
  processing_metadata : Option (Option String) := none
  output_metadata : Option (Option String) := none
  deriving DecidableEq

/-- Parameters dictionary accepted by update_transform. -/
structure TransformUpdParams where
  status : Option TransformStatus := none
  substatus : Option (Option TransformStatus) := none
  locking : Option TransformLocking := none
  priority : Option Nat := none
  retries : Option Nat := none
  next_poll_at : Option Int := none
  expired_at : Option (Option Int) := none
  transform_metadata : Option (Option String) := none
  deriving DecidableEq

/-- The terminal-status test of update_processing: finished_at is stamped
when the parameters carry status Finished, Failed or Lost. -/
def processing_stamps_finished (p : ProcessingUpdParams) : Bool :=
  match p.status with
  | some .Finished => true
  | some .Failed => true
  | some .Lost => true
  | _ => false

/-- The terminal-status test of update_transform: finished_at is stamped
when the parameters carry status Finished or Failed (the value variants of
the same two statuses denote the same members). -/
def transform_stamps_finished (p : TransformUpdParams) : Bool :=
  match p.status with
  | some .Finished => true
  | some .Failed => true
  | _ => false

/-- The SET clause of update_processing applied to one row: updated_at is
overwritten with now, finished_at is stamped for a terminal status, and
every key present in the parameters overwrites its column. -/
def apply_processing_update (p : ProcessingUpdParams) (now : Int) (r : ProcessingRow) :
    ProcessingRow :=
  { r with
    updated_at := now
    finished_at := if processing_stamps_finished p then some now else r.finished_at
    status := p.status.getD r.status
    substatus := p.substatus.getD r.substatus
    locking := p.locking.getD r.locking
    next_poll_at := p.next_poll_at.getD r.next_poll_at
    expired_at := p.expired_at.getD r.expired_at
    processing_metadata := p.processing_metadata.getD r.processing_metadata
    output_metadata := p.output_metadata.getD r.output_metadata }

/-- The SET clause of update_transform applied to one row. -/
def apply_transform_update (p : TransformUpdParams) (now : Int) (r : TransformRow) :
    TransformRow :=
  { r with
    updated_at := now
    finished_at := if transform_stamps_finished p then some now else r.finished_at
    status := p.status.getD r.status
    substatus := p.substatus.getD r.substatus
    locking := p.locking.getD r.locking
    priority := p.priority.getD r.priority
    retries := p.retries.getD r.retries
    next_poll_at := p.next_poll_at.getD r.next_poll_at
    expired_at := p.expired_at.getD r.expired_at
    transform_metadata := p.transform_metadata.getD r.transform_metadata }

/-- orm.processings.update_processing: stamp updated_at with the current
time, stamp finished_at when the new status is Finished, Failed or Lost,
and update the rows whose processing_id matches. -/
def update_processing (db : ProcessingTable) (processing_id : Nat)
    (p : ProcessingUpdParams) (now : Int) : ProcessingTable :=
  { db with rows := db.rows.map (fun r =>
      if r.processing_id = processing_id then apply_processing_update p now r else r) }

/-- orm.transforms.update_transform: stamp updated_at with the current time,
stamp finished_at when the new status is Finished or Failed, and update the
rows whose transform_id matches. -/
def update_transform (db : TransformTable) (transform_id : Nat)
    (p : TransformUpdParams) (now : Int) : TransformTable :=
  { db with rows := db.rows.map (fun r =>
      if r.transform_id = transform_id then apply_transform_update p now r else r) }

end Orm

namespace Atlas

open IddsModel

/-- Python runtime error kinds raised by the embedded stage-in code. -/
inductive PyErr
  | keyError | typeError | indexError | valueError | processNotFound | iddsException | rucioException
  deriving DecidableEq

/-- Python dictionary access d[k] given the optional stored value: a missing
key raises KeyError. -/
def dictGet {α : Type} (o : Option α) : Except PyErr α :=
  match o with
  | some v => .ok v
  | none => .error .keyError

/-- Lookup in an association list modelling a Python dictionary. -/
def alist_get {κ α : Type} [DecidableEq κ] (l : List (κ × α)) (k : κ) : Option α :=
  (l.find? (fun kv => decide (kv.1 = k))).map (fun kv => kv.2)

/-- Assignment d[k] = v on a Python dictionary: overwrite the key when it is
present, append it otherwise. -/
def alist_set {κ α : Type} [DecidableEq κ] (l : List (κ × α)) (k : κ) (v : α) :
    List (κ × α) :=
  if (l.find? (fun kv => decide (kv.1 = k))).isSome then
    l.map (fun kv => if kv.1 = k then (kv.1, v) else kv)
  else l ++ [(k, v)]

/-- The content_metadata dictionary of a content record; primary is some b
exactly when the key primary is present. -/
structure ContentMeta where
  events : Option Nat := none
  primary : Option Bool := none
  deriving DecidableEq

/-- A content dictionary as it appears in input and output lists of the
mapping table. Fields that a freshly discovered file does not carry
(content_id, status, substatus) are optional: none models a missing key. -/
structure Content where
  content_id : Option Nat := none
  coll_id : Nat
  scope : String
  name : String
  bytes : Nat := 0
  adler32 : String := ""
  min_id : Nat := 0
  max_id : Nat := 0
  content_type : ContentType := .File
  status : Option ContentStatus := none
  substatus : Option ContentStatus := none
  content_metadata : ContentMeta := {}
  deriving DecidableEq

/-- A key of the input_output_maps dictionary: the mapping algorithm uses
integer keys, but Python also admits string keys, which is what the literal
string lookup in get_status_statistics produces. -/
inductive MapKey
  | intKey (n : Nat)
  | strKey (s : String)
  deriving DecidableEq

/-- One entry of the input_output_maps table. -/
structure MapEntry where
  inputs : List Content
  outputs : List Content
  deriving DecidableEq

/-- The input_output_maps table, an insertion-ordered Python dictionary. -/
abbrev InputOutputMaps : Type := List (MapKey × MapEntry)

/-- A collection dictionary held in Work.collections. -/
structure Collection where
  coll_id : Nat
  scope : String
  name : String
  status : CollectionStatus
  deriving DecidableEq

/-- The processing_metadata dictionary written by create_processing. The
rule_id field models dictionary key presence: none means the key rule_id is
absent, some v means the key is present holding v, and v = none models the
Python value None. -/
structure ProcessingMetadata where
  internal_id : String
  src_rse : Option String := none
  dest_rse : Option String := none
  life_time : Nat := 0
  rule_id : Option (Option String) := none
  deriving DecidableEq

/-- An in-memory processing dictionary of the Work object; processing_id is
only present after the row has been persisted. -/
structure WorkProcessing where
  processing_id : Option Nat := none
  processing_metadata : ProcessingMetadata
  deriving DecidableEq

/-- Modelled from the spec: the attributes of the base Work class (not under
src) that ATLASStageinWork reads and writes: the collections dictionary
keyed by internal collection id, the primary input collection id, the
output collection ids, the processings dictionary keyed by internal id, the
active_processings list, the has_new_inputs flag and the work status;
together with the stage-in fields set in its constructor. -/
structure ATLASStageinWork where
  collections : List (String × Collection)
  primary_input_collection : String
  output_collections : List String
  processings : List (String × WorkProcessing) := []
  active_processings : List String := []
  has_new_inputs : Bool := true
  src_rse : Option String := none
  dest_rse : Option String := none
  life_time : Nat := 0
  rule_id : Option String := none
  status : WorkStatus := .New
  deriving DecidableEq

/-- A file record returned by the DataService list_files. -/
structure RucioFile where
  scope : String
  name : String
  bytes : Nat
  adler32 : String
  events : Nat
  deriving DecidableEq

/-- A replication rule as returned by get_replication_rule. -/
structure RucioRule where
  state : String
  locks_ok_cnt : Nat
  deriving DecidableEq

/-- A replica lock as returned by list_replica_locks. -/
structure ReplicaLock where
  scope : String
  name : String
  state : String
  deriving DecidableEq

/-- A rule as returned by list_did_rules. -/
structure DidRule where
  id : String
  account : String
  rse_expression : String
  deriving DecidableEq

/-- Errors raised by the DataService client. -/
inductive RucioError
  | duplicateRule | ruleNotFound | cannotAuthenticate | otherError
  deriving DecidableEq

/-- add_replication_rule returns either a single rule id or a list of them. -/
inductive RuleIdResult
  | single (s : String)
  | multiple (l : List String)
  deriving DecidableEq

/-- The keyword arguments of add_replication_rule as built by create_rule. -/
structure AddRuleArgs where
  dids : List (String × String)
  copies : Nat
  rse_expression : Option String
  source_replica_expression : Option String
  lifetime : Nat
  locked : Bool
  grouping : String
  ask_approval : Bool

/-- Modelled from the spec: the DataService capability set of section 6; one
value of this structure is one external-service behaviour. -/
structure RucioEnv where
  account : String
  add_replication_rule : AddRuleArgs → Except RucioError RuleIdResult
  list_did_rules : String → String → List DidRule
  get_replication_rule : Option String → Except RucioError RucioRule
  list_replica_locks : Option String → List ReplicaLock
  list_files : String → String → List RucioFile

/-- The scope:name key of a content record. -/
def scope_name (c : Content) : String := c.scope ++ ":" ++ c.name

/-- Modelled from the spec: the base Work setter for the has_new_inputs
flag used by get_new_input_output_maps. -/
def set_has_new_inputs (w : ATLASStageinWork) (b : Bool) : ATLASStageinWork :=
  { w with has_new_inputs := b }

/-- ATLASStageinWork.get_input_contents: list the files of the primary input
collection through the DataService and shape each into a content record
with min_id 0, max_id the event count and content type File. Any error in
the body is re-raised as IDDSException. -/
def get_input_contents (env : RucioEnv) (w : ATLASStageinWork) :
    Except PyErr (List Content) :=
  match alist_get w.collections w.primary_input_collection with
  | none => .error .iddsException
  | some coll =>
      .ok ((env.list_files coll.scope coll.name).map (fun f =>
        { coll_id := coll.coll_id
          scope := f.scope
          name := f.name
          bytes := f.bytes
          adler32 := f.adler32
          min_id := 0
          max_id := f.events
          content_type := ContentType.File
          content_metadata := { events := some f.events } }))

/-- The primary input of one map entry: inputs[0] unless a later input is
flagged primary in its content_metadata (the loop keeps overwriting, so the
last flagged one wins); inputs[0] on an empty list raises IndexError. -/
def pick_primary_input (inputs : List Content) : Except PyErr Content :=
  match inputs with
  | [] => .error .indexError
  | i0 :: _ =>
      .ok (inputs.foldl
        (fun acc ip => if ip.content_metadata.primary = some true then ip else acc) i0)

/-- ATLASStageinWork.get_mapped_inputs: the primary input of every entry of
the mapping table, in table order. -/
def get_mapped_inputs (mapped_input_output_maps : InputOutputMaps) :
    Except PyErr (List Content) :=
  mapped_input_output_maps.mapM (fun kv => pick_primary_input kv.2.inputs)

/-- The Python max over the keys of the mapping table: the maximum when all
keys are integers; comparing an integer key with a string key (or adding
one to a string maximum) raises TypeError, and max of an empty sequence
raises ValueError. -/
def max_map_key (ks : List MapKey) : Except PyErr Nat :=
  match ks.mapM (fun k => match k with | .intKey n => some n | .strKey _ => none) with
  | some [] => .error .valueError
  | some (n :: ns) => .ok (ns.foldl Nat.max n)
  | none => .error .typeError

/-- Lines 171 to 175 of atlasstageinwork.py: the next integer key is 1 for
an empty table and max(existing keys) + 1 otherwise. -/
def next_new_key (mapped_input_output_maps : InputOutputMaps) : Except PyErr Nat :=
  match mapped_input_output_maps with
  | [] => .ok 1
  | _ =>
      match max_map_key (mapped_input_output_maps.map Prod.fst) with
      | .ok m => .ok (m + 1)
      | .error e => .error e

/-- The for loop of get_new_input_output_maps: one entry per new input, at
consecutive keys, whose single output is a copy of the input with coll_id
replaced by the coll_id of the first output collection (looked up inside
the loop body, so only evaluated when a new input exists). -/
def build_new_maps (w : ATLASStageinWork) : Nat → List Content → Except PyErr InputOutputMaps
  | _, [] => .ok []
  | key, ip :: rest => do
      let oc ← (match w.output_collections with
        | [] => Except.error PyErr.indexError
        | oc :: _ => Except.ok oc)
      let ocoll ← dictGet (alist_get w.collections oc)
      let rest_maps ← build_new_maps w (key + 1) rest
      .ok ((MapKey.intKey key,
            { inputs := [ip], outputs := [{ ip with coll_id := ocoll.coll_id }] }) :: rest_maps)

/-- Statement form of the delta described by the mapping claim, following
the wording of the claim rather than the code: one entry per new file, at
consecutive integer keys from the given start, each holding the file as its
single input and a copy with the output coll_id as its single output. It is
compared against the result of get_new_input_output_maps. -/
def spec_new_entries (ocid : Nat) : Nat → List Content → InputOutputMaps
  | _, [] => []
  | key, ip :: rest =>
      (MapKey.intKey key, { inputs := [ip], outputs := [{ ip with coll_id := ocid }] }) ::
        spec_new_entries ocid (key + 1) rest

/-- ATLASStageinWork.get_new_input_output_maps: discover the input files,
keep those whose scope:name is not a mapped primary input, and either clear
has_new_inputs (no new file and the primary collection Closed, with the
collection status only consulted when there is no new file) or extend the
table with one entry per new file at consecutive keys. Returns the new
entries together with the resulting work object. -/
def get_new_input_output_maps (env : RucioEnv) (w : ATLASStageinWork)
    (mapped_input_output_maps : InputOutputMaps) :
    Except PyErr (InputOutputMaps × ATLASStageinWork) :=
  match get_input_contents env w with
  | .error e => .error e
  | .ok inputs =>
    match get_mapped_inputs mapped_input_output_maps with
    | .error e => .error e
    | .ok mapped_inputs =>
      let mapped_inputs_scope_name := mapped_inputs.map scope_name
      let new_inputs := inputs.filter (fun ip => decide (scope_name ip ∉ mapped_inputs_scope_name))
      match (if new_inputs.isEmpty then
               match dictGet (alist_get w.collections w.primary_input_collection) with
               | .error e => .error e
               | .ok pcoll => .ok (decide (pcoll.status = CollectionStatus.Closed))
             else .ok false : Except PyErr Bool) with
      | .error e => .error e
      | .ok true => .ok (([] : InputOutputMaps), set_has_new_inputs w false)
      | .ok false =>
          match next_new_key mapped_input_output_maps with
          | .error e => .error e
          | .ok next_key =>
              match build_new_maps w next_key new_inputs with
              | .error e => .error e
              | .ok entries => .ok (entries, w)

/-- ATLASStageinWork.create_processing: build an in-memory processing whose
metadata holds a fresh internal id, the two RSEs, the life time and the
rule_id attribute of the work (None by default, so the rule_id key is
always present), store it under its internal id and mark it active. The
fresh uuid is an explicit argument. -/
def create_processing (w : ATLASStageinWork) (internal_id : String) : ATLASStageinWork :=
  let proc : WorkProcessing :=
    { processing_metadata :=
        { internal_id := internal_id
          src_rse := w.src_rse
          dest_rse := w.dest_rse
          life_time := w.life_time
          rule_id := some w.rule_id } }
  { w with
    processings := w.processings ++ [(internal_id, proc)]
    active_processings := w.active_processings ++ [internal_id] }

/-- Indexing a Python string with a string key raises TypeError; this models
line 218 of atlasstageinwork.py, where the DuplicateRule handler subscripts
the internal collection id self.primary_input_collection itself instead of
the collection dictionary self.collections[...]. -/
def py_subscript_str (_s _k : String) : Except PyErr String :=
  .error .typeError

/-- ATLASStageinWork.create_rule: submit the replication rule for the DID of
the primary input collection. On success return the (first) rule id. On
DuplicateRule, list the existing rules and adopt the first one whose
account is the client account and whose rse_expression is dest_rse; the
scope and name for that listing are read by subscripting the internal
collection id, which raises TypeError, and an error raised inside the
handler propagates. Any other error in the body is swallowed and the
function returns None. The lifetime keyword reads self.lifetime, an
attribute the class never assigns; modelled from the spec: section 4.3.2
passes lifetime = life_time. -/
def create_rule (env : RucioEnv) (w : ATLASStageinWork) : Except PyErr (Option String) :=
  match alist_get w.collections w.primary_input_collection with
  | none => .ok none
  | some coll =>
      let args : AddRuleArgs :=
        { dids := [(coll.scope, coll.name)]
          copies := 1
          rse_expression := w.dest_rse
          source_replica_expression := w.src_rse
          lifetime := w.life_time
          locked := false
          grouping := "DATASET"
          ask_approval := false }
      match env.add_replication_rule args with
      | .ok (.single s) => .ok (some s)
      | .ok (.multiple []) => .ok none
      | .ok (.multiple (s :: _)) => .ok (some s)
      | .error .duplicateRule => do
          let sc ← py_subscript_str w.primary_input_collection "scope"
          let nm ← py_subscript_str w.primary_input_collection "name"
          let rules := env.list_did_rules sc nm
          match rules.find? (fun rule =>
              decide (rule.account = env.account) && decide (some rule.rse_expression = w.dest_rse)) with
          | some rule => .ok (some rule.id)
          | none => .ok none
      | .error _ => .ok none

/-- ATLASStageinWork.submit_processing: take the first active processing; if
its metadata contains the key rule_id (whatever its value, including None)
do nothing; only when the key is absent call create_rule and store the
returned id under rule_id. The boolean of the result records whether
create_rule was invoked. -/
def submit_processing (env : RucioEnv) (w : ATLASStageinWork) :
    Except PyErr (ATLASStageinWork × Bool) :=
  match w.active_processings with
  | [] => .ok (w, false)
  | pid :: _ => do
      let p ← dictGet (alist_get w.processings pid)
      match p.processing_metadata.rule_id with
      | some _ => .ok (w, false)
      | none => do
          let rid ← create_rule env w
          let p2 := { p with processing_metadata :=
            { p.processing_metadata with rule_id := some rid } }
          let new_procs := w.processings.map (fun kv => if kv.1 = pid then (kv.1, p2) else kv)
          .ok ({ w with processings := new_procs }, true)

/-- ATLASStageinWork.poll_rule: read the rule of the first active
processing; when locks_ok_cnt is positive, record ContentStatus.Available
under scope:name for every replica lock in state OK; RuleNotFound becomes
ProcessNotFound, other DataService errors propagate. -/
def poll_rule (env : RucioEnv) (w : ATLASStageinWork) :
    Except PyErr (WorkProcessing × String × List (String × ContentStatus)) := do
  let pid ← (match w.active_processings with
    | [] => Except.error PyErr.indexError
    | pid :: _ => Except.ok pid)
  let p ← dictGet (alist_get w.processings pid)
  let rid ← dictGet p.processing_metadata.rule_id
  match env.get_replication_rule rid with
  | .error .ruleNotFound => .error .processNotFound
  | .error _ => .error .rucioException
  | .ok rule =>
      let replicases_status :=
        if rule.locks_ok_cnt > 0 then
          (env.list_replica_locks rid).foldl (fun acc lock =>
            if lock.state = "OK" then
              alist_set acc (lock.scope ++ ":" ++ lock.name) ContentStatus.Available
            else acc) []
        else []
      .ok (p, rule.state, replicases_status)

/-- ATLASStageinWork.poll_processing simply delegates to poll_rule. -/
def poll_processing (env : RucioEnv) (w : ATLASStageinWork) :
    Except PyErr (WorkProcessing × String × List (String × ContentStatus)) :=
  poll_rule env w

/-- A content-substatus delta emitted by poll_processing_updates. -/
structure UpdatedContent where
  content_id : Nat
  substatus : ContentStatus
  deriving DecidableEq

/-- The processing delta emitted by poll_processing_updates. -/
structure ProcessingUpdate where
  processing_id : Nat
  status : ProcessingStatus
  deriving DecidableEq

/-- Subscripting an enumeration member with a string raises TypeError; this
models rep_status[key] followed by the subscript of the stored value with
the string substatus at line 271 of atlasstageinwork.py, where the stored
value is the enumeration member ContentStatus.Available. -/
def content_status_subscript (_c : ContentStatus) (_k : String) : Except PyErr ContentStatus :=
  .error .typeError

/-- The body of the output loop of poll_processing_updates for one content:
when the scope:name key is in the replica-status map, compare the content
substatus against rep_status[key] subscripted with substatus (a TypeError,
since the stored value is an enumeration member) and on a difference emit a
delta and update the content in place. -/
def process_output (rep_status : List (String × ContentStatus)) (content : Content) :
    Except PyErr (Option UpdatedContent × Content) :=
  match alist_get rep_status (content.scope ++ ":" ++ content.name) with
  | some v => do
      let cur ← dictGet content.substatus
      let mapped ← content_status_subscript v "substatus"
      if cur ≠ mapped then do
        let cid ← dictGet content.content_id
        pure (some { content_id := cid, substatus := mapped },
              { content with substatus := some mapped })
      else
        pure (none, content)
  | none => pure (none, content)

/-- The inner loop of poll_processing_updates over the outputs of one map
entry, threading the emitted deltas and the finished and unfinished
counters; the counter reads the substatus after the in-place update. -/
def poll_outputs (rep_status : List (String × ContentStatus))
    (st : List UpdatedContent × Nat × Nat) (contents : List Content) :
    Except PyErr (List UpdatedContent × Nat × Nat) :=
  contents.foldlM (fun st content => do
    let (upd, content2) ← process_output rep_status content
    let sub ← dictGet content2.substatus
    let (us, fin, unfin) := st
    let us2 := match upd with
      | some u => us ++ [u]
      | none => us
    if sub = ContentStatus.Available then pure (us2, fin + 1, unfin)
    else pure (us2, fin, unfin + 1)) st

/-- ATLASStageinWork.poll_processing_updates: poll the rule, reconcile every
output content against the replica-status map, and when the rule state is
OK with a positive finished count and a zero unfinished count also emit the
processing Finished delta. -/
def poll_processing_updates (env : RucioEnv) (w : ATLASStageinWork)
    (input_output_maps : InputOutputMaps) :
    Except PyErr (Option ProcessingUpdate × List UpdatedContent) := do
  let res ← poll_processing env w
  let processing := res.1
  let rule_state := res.2.1
  let rep_status := res.2.2
  let st ← input_output_maps.foldlM
    (fun st kv => poll_outputs rep_status st kv.2.outputs) ([], 0, 0)
  let updated_contents := st.1
  let fin := st.2.1
  let unfin := st.2.2
  if rule_state = "OK" ∧ fin > 0 ∧ unfin = 0 then do
    let pid ← dictGet processing.processing_id
    pure (some { processing_id := pid, status := ProcessingStatus.Finished }, updated_contents)
  else
    pure (none, updated_contents)

/-- The counter increment of get_status_statistics: initialize a missing
status name to zero, then add one. -/
def incr_stat (stats : List (String × Nat)) (key : String) : List (String × Nat) :=
  match alist_get stats key with
  | none => stats ++ [(key, 1)]
  | some n => alist_set stats key (n + 1)

/-- ATLASStageinWork.get_status_statistics: for every key of the table, read
registered_input_output_maps subscripted with the literal string map_id
(sic, line 290 of atlasstageinwork.py) and count the status names of its
outputs; with the integer keys produced by the mapping algorithm that
lookup raises KeyError. -/
def get_status_statistics (registered_input_output_maps : InputOutputMaps) :
    Except PyErr (List (String × Nat)) :=
  registered_input_output_maps.foldlM (fun stats _kv => do
    let entry ← dictGet (alist_get registered_input_output_maps (MapKey.strKey "map_id"))
    entry.outputs.foldlM (fun st content => do
      let s ← dictGet content.status
      pure (incr_stat st s.name)) stats) []

/-- ATLASStageinWork.syn_work_status: compute the status statistics; when
there is no active processing and no pending new inputs, leave the status
alone if any content is New or Processing, set Finished when the only
status name is Available, Failed when the only status name is something
else, and SubFinished when several status names occur. -/
def syn_work_status (w : ATLASStageinWork)
    (registered_input_output_maps : InputOutputMaps) : Except PyErr ATLASStageinWork := do
  let stats ← get_status_statistics registered_input_output_maps
  if w.active_processings.isEmpty ∧ w.has_new_inputs = false then
    let keys := stats.map (fun kv => kv.1)
    if ContentStatus.New.name ∈ keys ∨ ContentStatus.Processing.name ∈ keys then
      pure w
    else
      if keys.length = 1 then
        if ContentStatus.Available.name ∈ keys then
          pure { w with status := WorkStatus.Finished }
        else
          pure { w with status := WorkStatus.Failed }
      else
        pure { w with status := WorkStatus.SubFinished }
  else
    pure w

end Atlas

namespace Fix

open IddsModel Atlas

/-- Primary input collection fixture. -/
def coll_in : Collection := { coll_id := 1, scope := "u", name := "ds1", status := .Open }

/-- Output collection fixture. -/
def coll_out : Collection := { coll_id := 2, scope := "u", name := "ds1_out", status := .Open }

/-- A stage-in work over the two fixture collections, before any processing
exists. -/
def work0 : ATLASStageinWork :=
  { collections := [("c1", coll_in), ("c2", coll_out)]
    primary_input_collection := "c1"
    output_collections := ["c2"]
    src_rse := some "SRC"
    dest_rse := some "DST"
    life_time := 100 }

/-- A file of the fixture input collection as the DataService lists it. -/
def file_f1 : RucioFile := { scope := "u", name := "f1", bytes := 10, adler32 := "ad", events := 5 }

/-- The content record get_input_contents builds from file_f1. -/
def content_f1 : Content :=
  { coll_id := 1
    scope := "u"
    name := "f1"
    bytes := 10
    adler32 := "ad"
    min_id := 0
    max_id := 5
    content_type := .File
    content_metadata := { events := some 5 } }

/-- A DataService behaviour whose rule creation succeeds with id R and whose
input collection holds the single file f1. -/
def env_ok : RucioEnv :=
  { account := "acc"
    add_replication_rule := fun _ => .ok (.single "R")
    list_did_rules := fun _ _ => []
    get_replication_rule := fun _ => .error .otherError
    list_replica_locks := fun _ => []
    list_files := fun _ _ => [file_f1] }

/-- A DataService behaviour raising DuplicateRule on rule creation while an
adoptable rule R0 for the client account and the destination exists. -/
def env_dup : RucioEnv :=
  { account := "acc"
    add_replication_rule := fun _ => .error .duplicateRule
    list_did_rules := fun _ _ => [{ id := "R0", account := "acc", rse_expression := "DST" }]
    get_replication_rule := fun _ => .error .otherError
    list_replica_locks := fun _ => []
    list_files := fun _ _ => [] }

/-- A DataService behaviour whose rule creation fails with an error other
than DuplicateRule. -/
def env_err : RucioEnv :=
  { account := "acc"
    add_replication_rule := fun _ => .error .otherError
    list_did_rules := fun _ _ => []
    get_replication_rule := fun _ => .error .otherError
    list_replica_locks := fun _ => []
    list_files := fun _ _ => [] }

/-- A DataService behaviour for the polling claim: the rule is in state OK
with one OK lock covering file f1. -/
def env_poll : RucioEnv :=
  { account := "acc"
    add_replication_rule := fun _ => .error .otherError
    list_did_rules := fun _ _ => []
    get_replication_rule := fun _ => .ok { state := "OK", locks_ok_cnt := 1 }
    list_replica_locks := fun _ => [{ scope := "u", name := "f1", state := "OK" }]
    list_files := fun _ _ => [] }

/-- A persisted active processing whose metadata carries rule id R. -/
def proc_R : WorkProcessing :=
  { processing_id := some 9
    processing_metadata :=
      { internal_id := "p1"
        src_rse := some "SRC"
        dest_rse := some "DST"
        life_time := 100
        rule_id := some (some "R") } }

/-- The fixture work with the persisted processing proc_R active. -/
def work_poll : ATLASStageinWork :=
  { work0 with processings := [("p1", proc_R)], active_processings := ["p1"] }

/-- A registered output content for file f1, not yet Available. -/
def out_f1 : Content :=
  { content_id := some 101
    coll_id := 2
    scope := "u"
    name := "f1"
    status := some .Processing
    substatus := some .New }

/-- A registered mapping table holding the single map 1 with output out_f1. -/
def maps_poll : InputOutputMaps :=
  [(MapKey.intKey 1, { inputs := [{ out_f1 with coll_id := 1 }], outputs := [out_f1] })]

/-- A registered output content for file f1 that is Available. -/
def out_f1_avail : Content :=
  { out_f1 with status := some .Available, substatus := some .Available }

/-- A registered mapping table whose only output content is Available. -/
def maps_avail : InputOutputMaps :=
  [(MapKey.intKey 1, { inputs := [{ out_f1_avail with coll_id := 1 }], outputs := [out_f1_avail] })]

/-- The fixture work with no active processing and no pending new inputs. -/
def work_rollup : ATLASStageinWork := { work0 with has_new_inputs := false }

/-- A mapped input content matching file f1 by scope and name. -/
def mapped_f1 : Content := { content_f1 with coll_id := 2 }

/-- A mapping table that already covers file f1. -/
def maps_covered : InputOutputMaps :=
  [(MapKey.intKey 1, { inputs := [content_f1], outputs := [mapped_f1] })]

/-- A due Transform row fixture. -/
def t_row : Orm.TransformRow :=
  { transform_id := 1
    transform_type := .StageIn
    transform_tag := none
    priority := 5
    status := .New
    substatus := none
    locking := .Idle
    retries := 0
    expired_at := none
    transform_metadata := none
    next_poll_at := 10
    updated_at := 20
    finished_at := none }

/-- A Transform table holding the single fixture row. -/
def t_table : Orm.TransformTable := { rows := [t_row], next_transform_id := 2 }

/-- A due Processing row fixture. -/
def p_row : Orm.ProcessingRow :=
  { processing_id := 1
    transform_id := 1
    status := .Submitted
    substatus := .New
    locking := .Idle
    submitter := none
    granularity := none
    granularity_type := .File
    expired_at := none
    processing_metadata := none
    output_metadata := none
    next_poll_at := 10
    updated_at := 20
    finished_at := none }

/-- A Processing table holding the single fixture row. -/
def p_table : Orm.ProcessingTable := { rows := [p_row], next_processing_id := 2 }

/-- An empty Processing table whose id sequence starts at 1. -/
def empty_ptable : Orm.ProcessingTable := { rows := [], next_processing_id := 1 }

/-- An empty Transform table whose id sequence starts at 1. -/
def empty_ttable : Orm.TransformTable := { rows := [], next_transform_id := 1 }

end Fix

open IddsModel

/-- Claim C1: the claim states that submit_processing creates the replication
rule and stores its id whenever the active processing metadata has no rule id
set, and is idempotent once a rule id exists. Evaluation at the failing input:
create_processing always inserts the rule_id key holding the value None, and
submit_processing tests only key membership, so on the work produced by
create_processing it leaves the work unchanged and never calls create_rule
(the boolean records whether create_rule was invoked), with the metadata still
holding rule_id None, although the DataService would have returned rule R. -/
theorem claim_C1 :
    Atlas.alist_get (Atlas.create_processing Fix.work0 "uuid-1").processings "uuid-1" =
      some { processing_metadata :=
        { internal_id := "uuid-1"
          src_rse := some "SRC"
          dest_rse := some "DST"
          life_time := 100
          rule_id := some none } } ∧
    Atlas.submit_processing Fix.env_ok (Atlas.create_processing Fix.work0 "uuid-1") =
      .ok (Atlas.create_processing Fix.work0 "uuid-1", false) := by
  exact ⟨rfl, rfl⟩

/-- Claim C2: the claim states that with no active processing and no pending
new inputs, syn_work_status sets the work status from the distribution of the
output content statuses, Finished here since the only content is Available.
Evaluation at the failing input: get_status_statistics subscripts the table
with the literal string map_id instead of the loop key, so on the
integer-keyed table the code raises KeyError instead. -/
theorem claim_C2 :
    Fix.work_rollup.active_processings = [] ∧
    Fix.work_rollup.has_new_inputs = false ∧
    Fix.maps_avail.map Prod.fst = [Atlas.MapKey.intKey 1] ∧
    Atlas.syn_work_status Fix.work_rollup Fix.maps_avail = .error .keyError := by
  exact ⟨rfl, rfl, rfl, rfl⟩

/-- Claim C3: the claim states that poll_processing_updates emits the delta
with the mapped status for every output content whose scope:name has an OK
lock with a differing substatus, and the processing Finished delta when the
rule is OK with all outputs Available. Evaluation at the failing input: the
replica-status map is built as claimed (first conjunct), but the
reconciliation subscripts the stored enumeration member with the string
substatus, so as soon as one key matches the code raises TypeError instead of
emitting the delta for content 101. -/
theorem claim_C3 :
    Atlas.poll_rule Fix.env_poll Fix.work_poll =
      .ok (Fix.proc_R, "OK", [("u:f1", ContentStatus.Available)]) ∧
    Atlas.poll_processing_updates Fix.env_poll Fix.work_poll Fix.maps_poll =
      .error .typeError := by
  exact ⟨rfl, rfl⟩

/-- Claim C6: the claim states that on DuplicateRule create_rule adopts the
first existing rule of the DID whose account and rse_expression match, R0
here (first conjunct shows the matching rule is found by that search), and
that on other errors it returns None. Evaluation at the failing input: the
DuplicateRule handler subscripts the internal collection id itself instead of
the collection dictionary, so the code raises TypeError instead of returning
R0; the other-error branch does return None (third conjunct). -/
theorem claim_C6 :
    (Fix.env_dup.list_did_rules "u" "ds1").find? (fun rule =>
        decide (rule.account = Fix.env_dup.account) &&
        decide (some rule.rse_expression = Fix.work0.dest_rse)) =
      some { id := "R0", account := "acc", rse_expression := "DST" } ∧
    Atlas.create_rule Fix.env_dup Fix.work0 = .error .typeError ∧
    Atlas.create_rule Fix.env_err Fix.work0 = .ok none := by
  exact ⟨rfl, rfl, rfl⟩

/-- Claim C8: the claim states that get_processing and get_transform raise
NoObject when no row with the requested id exists. Evaluation at the failing
input: both use first() and return the non-error value None on an empty
table, so no NoObject error is raised. -/
theorem claim_C8 :
    Orm.get_processing Fix.empty_ptable 42 = .ok none ∧
    Orm.get_transform Fix.empty_ttable 7 = .ok none := by
  exact ⟨rfl, rfl⟩

/-- The loop of get_new_input_output_maps produces exactly the claimed
entries once the first output collection resolves. -/
theorem build_new_maps_eq_spec (w : Atlas.ATLASStageinWork) (oc : String)
    (ocoll : Atlas.Collection)
    (ho : w.output_collections.head? = some oc)
    (hoc : Atlas.alist_get w.collections oc = some ocoll) :
    ∀ (k : Nat) (l : List Atlas.Content),
      Atlas.build_new_maps w k l = .ok (Atlas.spec_new_entries ocoll.coll_id k l) := by
  intro k l
  induction l generalizing k with
  | nil => rfl
  | cons ip rest ih =>
      cases hout : w.output_collections with
      | nil => rw [hout] at ho; cases ho
      | cons a as =>
          rw [hout] at ho
          have ha : a = oc := by simpa using ho
          subst ha
          simp [Atlas.build_new_maps, Atlas.spec_new_entries, hout, hoc, Atlas.dictGet,
                ih, Bind.bind, Except.bind]

/-- The keys of the claimed entries are the consecutive integers from the
start key. -/
theorem spec_new_entries_keys (ocid : Nat) :
    ∀ (k : Nat) (l : List Atlas.Content),
      (Atlas.spec_new_entries ocid k l).map Prod.fst =
        (List.range l.length).map (fun i => Atlas.MapKey.intKey (k + i)) := by
  intro k l
  induction l generalizing k with
  | nil => rfl
  | cons ip rest ih =>
      simp only [Atlas.spec_new_entries, List.map_cons, ih (k + 1), List.length_cons,
                 List.range_succ_eq_map, List.map_map]
      refine congrArg₂ List.cons (by simp) ?_
      refine List.map_congr_left ?_
      intro i _
      simp only [Function.comp_apply]
      congr 1
      omega

/-- Claim C4: get_new_input_output_maps creates exactly one map entry per
discovered file whose scope:name is not a mapped primary input, at
consecutive integer keys starting at max(existing keys) + 1 (or 1 on an
empty table), each entry holding the file as input and a copy with the
first output collection coll_id as output; and it clears has_new_inputs
exactly when there is no such new file and the primary collection is
Closed. -/
theorem claim_C4 (env : Atlas.RucioEnv) (w : Atlas.ATLASStageinWork)
    (maps : Atlas.InputOutputMaps) (files prims new_files : List Atlas.Content)
    (pcoll ocoll : Atlas.Collection) (oc : String) (k : Nat)
    (hf : Atlas.get_input_contents env w = .ok files)
    (hp : Atlas.get_mapped_inputs maps = .ok prims)
    (hc : Atlas.alist_get w.collections w.primary_input_collection = some pcoll)
    (ho : w.output_collections.head? = some oc)
    (hoc : Atlas.alist_get w.collections oc = some ocoll)
    (hk : Atlas.next_new_key maps = .ok k)
    (hnf : new_files = files.filter (fun ip =>
      decide (Atlas.scope_name ip ∉ prims.map Atlas.scope_name))) :
    Atlas.get_new_input_output_maps env w maps =
      .ok (Atlas.spec_new_entries ocoll.coll_id k new_files,
           if new_files = [] ∧ pcoll.status = CollectionStatus.Closed
           then Atlas.set_has_new_inputs w false else w) ∧
    (Atlas.spec_new_entries ocoll.coll_id k new_files).map Prod.fst =
      (List.range new_files.length).map (fun i => Atlas.MapKey.intKey (k + i)) ∧
    (maps = [] → k = 1) ∧
    (∀ m, maps ≠ [] → Atlas.max_map_key (maps.map Prod.fst) = .ok m → k = m + 1) := by
  refine ⟨?_, spec_new_entries_keys _ _ _, ?_, ?_⟩
  · subst hnf
    simp only [Atlas.get_new_input_output_maps, hf, hp]
    by_cases hempty : files.filter (fun ip =>
        decide (Atlas.scope_name ip ∉ prims.map Atlas.scope_name)) = []
    · rw [hempty]
      by_cases hclosed : pcoll.status = CollectionStatus.Closed
      · simp [hclosed, hc, Atlas.dictGet, Atlas.spec_new_entries]
      · simp [hclosed, hc, hk, Atlas.dictGet, Atlas.build_new_maps, Atlas.spec_new_entries]
    · have hbe : (files.filter (fun ip =>
          decide (Atlas.scope_name ip ∉ prims.map Atlas.scope_name))).isEmpty = false := by
        cases hfe : (files.filter (fun ip =>
            decide (Atlas.scope_name ip ∉ prims.map Atlas.scope_name))).isEmpty with
        | false => rfl
        | true => exact absurd (List.isEmpty_iff.mp hfe) hempty
      rw [hbe]
      simp only [Bool.false_eq_true, if_false, hk,
                 build_new_maps_eq_spec w oc ocoll ho hoc]
      rw [if_neg (show ¬(files.filter (fun ip =>
          decide (Atlas.scope_name ip ∉ prims.map Atlas.scope_name)) = [] ∧
          pcoll.status = CollectionStatus.Closed) from fun hand => hempty hand.1)]
  · intro hm
    subst hm
    simp [Atlas.next_new_key] at hk
    omega
  · intro m hne hm
    cases maps with
    | nil => exact absurd rfl hne
    | cons a as =>
        unfold Atlas.next_new_key at hk
        rw [hm] at hk
        exact (Except.ok.inj hk).symm

/-- Witness for claim C4: on the fixture work with one discovered file and an
empty mapping table, one entry is created at key 1, the output copy carries
the output collection coll_id 2, and has_new_inputs stays set. -/
theorem claim_C4_witness :
    Atlas.get_input_contents Fix.env_ok Fix.work0 = .ok [Fix.content_f1] ∧
    Atlas.get_new_input_output_maps Fix.env_ok Fix.work0 [] =
      .ok ([(Atlas.MapKey.intKey 1,
             { inputs := [Fix.content_f1],
               outputs := [{ Fix.content_f1 with coll_id := 2 }] })], Fix.work0) := by
  refine ⟨rfl, ?_⟩
  have h := (claim_C4 Fix.env_ok Fix.work0 [] [Fix.content_f1] [] [Fix.content_f1]
    Fix.coll_in Fix.coll_out "c2" 1 rfl rfl rfl rfl rfl rfl rfl).1
  simpa [Atlas.spec_new_entries, Fix.coll_out, Fix.coll_in] using h

/-- When no discovered file is new, get_new_input_output_maps returns the
empty delta, clearing has_new_inputs exactly when the primary collection is
Closed. -/
theorem get_new_maps_no_new_inputs (env : Atlas.RucioEnv) (w : Atlas.ATLASStageinWork)
    (maps : Atlas.InputOutputMaps) (files prims : List Atlas.Content)
    (pcoll : Atlas.Collection) (k : Nat)
    (hf : Atlas.get_input_contents env w = .ok files)
    (hp : Atlas.get_mapped_inputs maps = .ok prims)
    (hc : Atlas.alist_get w.collections w.primary_input_collection = some pcoll)
    (hk : Atlas.next_new_key maps = .ok k)
    (hempty : files.filter (fun ip =>
      decide (Atlas.scope_name ip ∉ prims.map Atlas.scope_name)) = []) :
    Atlas.get_new_input_output_maps env w maps =
      .ok ([], if pcoll.status = CollectionStatus.Closed
               then Atlas.set_has_new_inputs w false else w) := by
  simp only [Atlas.get_new_input_output_maps, hf, hp]
  rw [hempty]
  by_cases hclosed : pcoll.status = CollectionStatus.Closed
  · simp [hclosed, hc, Atlas.dictGet]
  · simp [hclosed, hc, hk, Atlas.dictGet, Atlas.build_new_maps]

/-- Claim C5: when every discovered file is already covered by a mapped
primary input, get_new_input_output_maps returns the empty delta, and
calling it again on the resulting work and the unchanged table returns the
same empty delta with the work unchanged. -/
theorem claim_C5 (env : Atlas.RucioEnv) (w : Atlas.ATLASStageinWork)
    (maps : Atlas.InputOutputMaps) (files prims : List Atlas.Content)
    (pcoll : Atlas.Collection)
    (hf : Atlas.get_input_contents env w = .ok files)
    (hp : Atlas.get_mapped_inputs maps = .ok prims)
    (hc : Atlas.alist_get w.collections w.primary_input_collection = some pcoll)
    (hk : ∃ k, Atlas.next_new_key maps = .ok k)
    (hcov : ∀ f ∈ files, Atlas.scope_name f ∈ prims.map Atlas.scope_name) :
    Atlas.get_new_input_output_maps env w maps =
      .ok ([], if pcoll.status = CollectionStatus.Closed
               then Atlas.set_has_new_inputs w false else w) ∧
    Atlas.get_new_input_output_maps env
        (if pcoll.status = CollectionStatus.Closed
         then Atlas.set_has_new_inputs w false else w) maps =
      .ok ([], if pcoll.status = CollectionStatus.Closed
               then Atlas.set_has_new_inputs w false else w) := by
  obtain ⟨k, hk⟩ := hk
  have hempty : files.filter (fun ip =>
      decide (Atlas.scope_name ip ∉ prims.map Atlas.scope_name)) = [] := by
    rw [List.filter_eq_nil_iff]
    intro a ha
    simp [hcov a ha]
  constructor
  · exact get_new_maps_no_new_inputs env w maps files prims pcoll k hf hp hc hk hempty
  · by_cases hclosed : pcoll.status = CollectionStatus.Closed
    · rw [if_pos hclosed]
      have h2 := get_new_maps_no_new_inputs env (Atlas.set_has_new_inputs w false)
        maps files prims pcoll k hf hp hc hk hempty
      rw [if_pos hclosed] at h2
      exact h2
    · rw [if_neg hclosed]
      have h2 := get_new_maps_no_new_inputs env w maps files prims pcoll k hf hp hc hk hempty
      rw [if_neg hclosed] at h2
      exact h2

/-- Witness for claim C5: the fixture table already covers the single
discovered file f1, so both the first and the second application return the
empty delta and leave the work unchanged. -/
theorem claim_C5_witness :
    Atlas.get_new_input_output_maps Fix.env_ok Fix.work0 Fix.maps_covered =
      .ok ([], if Fix.coll_in.status = CollectionStatus.Closed
               then Atlas.set_has_new_inputs Fix.work0 false else Fix.work0) ∧
    Atlas.get_new_input_output_maps Fix.env_ok
        (if Fix.coll_in.status = CollectionStatus.Closed
         then Atlas.set_has_new_inputs Fix.work0 false else Fix.work0) Fix.maps_covered =
      .ok ([], if Fix.coll_in.status = CollectionStatus.Closed
               then Atlas.set_has_new_inputs Fix.work0 false else Fix.work0) :=
  claim_C5 Fix.env_ok Fix.work0 Fix.maps_covered [Fix.content_f1] [Fix.content_f1]
    Fix.coll_in rfl rfl rfl ⟨2, rfl⟩ (by decide)

/-- Membership in the optional period filter. -/
theorem mem_opt_period_filter {α : Type} (updated : α → Int) (period : Option Int)
    (now : Int) (q : List α) (r : α) :
    r ∈ Orm.opt_period_filter updated period now q ↔
      r ∈ q ∧ ∀ p, period = some p → p ≠ 0 → updated r < now - p := by
  cases period with
  | none => simp [Orm.opt_period_filter]
  | some p =>
      by_cases hp : p = 0
      · subst hp
        simp [Orm.opt_period_filter]
      · rw [Orm.opt_period_filter, if_pos hp]
        simp only [List.mem_filter, decide_eq_true_eq]
        constructor
        · rintro ⟨h1, h2⟩
          exact ⟨h1, fun p2 hp2 _ => (Option.some.inj hp2) ▸ h2⟩
        · rintro ⟨h1, h2⟩
          exact ⟨h1, h2 p rfl hp⟩

/-- Every element surviving the optional limit is in the base list. -/
theorem mem_opt_limit {α : Type} (bulk_size : Option Nat) (q : List α) (r : α)
    (h : r ∈ Orm.opt_limit bulk_size q) : r ∈ q := by
  cases bulk_size with
  | none => exact h
  | some b =>
      by_cases hb : b = 0
      · subst hb
        simpa [Orm.opt_limit] using h
      · rw [Orm.opt_limit, if_pos hb] at h
        exact List.mem_of_mem_take h

/-- The optional limit with a truthy bulk size bounds the result length. -/
theorem opt_limit_length {α : Type} (b : Nat) (hb : b ≠ 0) (q : List α) :
    (Orm.opt_limit (some b) q).length ≤ b := by
  rw [Orm.opt_limit, if_pos hb]
  simp [List.length_take]

/-- The optional limit preserves sortedness. -/
theorem opt_limit_pairwise {α : Type} {R : α → α → Prop} (bulk_size : Option Nat)
    (q : List α) (h : q.Pairwise R) : (Orm.opt_limit bulk_size q).Pairwise R := by
  cases bulk_size with
  | none => exact h
  | some b =>
      by_cases hb : b = 0
      · subst hb
        simpa [Orm.opt_limit] using h
      · rw [Orm.opt_limit, if_pos hb]
        exact List.Pairwise.sublist (List.take_sublist _ _) h

/-- The optional limit with no bulk size or a falsy one is the identity. -/
theorem opt_limit_falsy {α : Type} (bulk_size : Option Nat)
    (hb : bulk_size = none ∨ bulk_size = some 0) (q : List α) :
    Orm.opt_limit bulk_size q = q := by
  rcases hb with hb | hb <;> subst hb <;> simp [Orm.opt_limit]

/-- The status-list normalization does not change membership. -/
theorem mem_normalize_status {α : Type} (l : List α) (x : α) :
    x ∈ Orm.normalize_status l ↔ x ∈ l := by
  unfold Orm.normalize_status
  split <;> simp [List.mem_append]

/-- The transform ordering is transitive. -/
theorem transform_order_trans : ∀ a b c : Orm.TransformRow,
    Orm.transform_order a b = true → Orm.transform_order b c = true →
    Orm.transform_order a c = true := by
  intro a b c hab hbc
  simp only [Orm.transform_order, Bool.or_eq_true, Bool.and_eq_true, decide_eq_true_eq] at *
  omega

/-- The transform ordering is total. -/
theorem transform_order_total : ∀ a b : Orm.TransformRow,
    (Orm.transform_order a b || Orm.transform_order b a) = true := by
  intro a b
  simp only [Orm.transform_order, Bool.or_eq_true, Bool.and_eq_true, decide_eq_true_eq]
  omega

/-- The processing ordering is transitive. -/
theorem processing_order_trans : ∀ a b c : Orm.ProcessingRow,
    Orm.processing_order a b = true → Orm.processing_order b c = true →
    Orm.processing_order a c = true := by
  intro a b c hab hbc
  simp only [Orm.processing_order, decide_eq_true_eq] at *
  omega

/-- The processing ordering is total. -/
theorem processing_order_total : ∀ a b : Orm.ProcessingRow,
    (Orm.processing_order a b || Orm.processing_order b a) = true := by
  intro a b
  simp only [Orm.processing_order, Bool.or_eq_true, decide_eq_true_eq]
  omega

/-- Membership characterization of get_transforms_by_status without a
limit: exactly the rows of the table satisfying the due-work predicate. -/
theorem transforms_by_status_none_mem (tdb : Orm.TransformTable)
    (ts : List TransformStatus) (period : Option Int) (locking : Bool) (now : Int)
    (r : Orm.TransformRow) :
    r ∈ Orm.get_transforms_by_status tdb ts period locking none now ↔
      r ∈ tdb.rows ∧ r.status ∈ ts ∧ r.next_poll_at < now ∧
      (locking = true → r.locking = TransformLocking.Idle) ∧
      (∀ p, period = some p → p ≠ 0 → r.updated_at < now - p) := by
  simp only [Orm.get_transforms_by_status, Orm.opt_limit]
  rw [(List.mergeSort_perm _ Orm.transform_order).mem_iff]
  cases locking with
  | false =>
      simp only [Bool.false_eq_true, if_false]
      rw [mem_opt_period_filter]
      simp only [List.mem_filter, Bool.and_eq_true, decide_eq_true_eq, mem_normalize_status]
      tauto
  | true =>
      simp only [if_true]
      rw [List.mem_filter]
      simp only [decide_eq_true_eq]
      rw [mem_opt_period_filter]
      simp only [List.mem_filter, Bool.and_eq_true, decide_eq_true_eq, mem_normalize_status]
      tauto

/-- Without a limit the transform query result is sorted by updated_at
ascending then priority descending. -/
theorem transforms_by_status_none_sorted (tdb : Orm.TransformTable)
    (ts : List TransformStatus) (period : Option Int) (locking : Bool) (now : Int) :
    (Orm.get_transforms_by_status tdb ts period locking none now).Pairwise
      (fun a b => a.updated_at < b.updated_at ∨
        (a.updated_at = b.updated_at ∧ b.priority ≤ a.priority)) := by
  simp only [Orm.get_transforms_by_status, Orm.opt_limit]
  refine List.Pairwise.imp ?_
    (List.sorted_mergeSort transform_order_trans transform_order_total _)
  intro a b hab
  simpa [Orm.transform_order, Bool.or_eq_true, Bool.and_eq_true, decide_eq_true_eq] using hab

/-- The transform query with any bulk size is the optional limit of the
query without one. -/
theorem transforms_by_status_limit (tdb : Orm.TransformTable)
    (ts : List TransformStatus) (period : Option Int) (locking : Bool)
    (bulk_size : Option Nat) (now : Int) :
    Orm.get_transforms_by_status tdb ts period locking bulk_size now =
      Orm.opt_limit bulk_size (Orm.get_transforms_by_status tdb ts period locking none now) :=
  rfl

/-- Membership characterization of get_processings_by_status without a
limit and without a submitter filter. -/
theorem processings_by_status_none_mem (pdb : Orm.ProcessingTable)
    (ps : List ProcessingStatus) (period : Option Int) (locking : Bool) (now : Int)
    (r : Orm.ProcessingRow) :
    r ∈ Orm.get_processings_by_status pdb ps period locking none none now ↔
      r ∈ pdb.rows ∧ r.status ∈ ps ∧ r.next_poll_at < now ∧
      (locking = true → r.locking = ProcessingLocking.Idle) ∧
      (∀ p, period = some p → p ≠ 0 → r.updated_at < now - p) := by
  simp only [Orm.get_processings_by_status, Orm.opt_limit]
  rw [(List.mergeSort_perm _ Orm.processing_order).mem_iff]
  cases locking with
  | false =>
      simp only [Bool.false_eq_true, if_false]
      rw [mem_opt_period_filter]
      simp only [List.mem_filter, Bool.and_eq_true, decide_eq_true_eq, mem_normalize_status]
      tauto
  | true =>
      simp only [if_true]
      rw [List.mem_filter]
      simp only [decide_eq_true_eq]
      rw [mem_opt_period_filter]
      simp only [List.mem_filter, Bool.and_eq_true, decide_eq_true_eq, mem_normalize_status]
      tauto

/-- Without a limit the processing query result is sorted by updated_at
ascending. -/
theorem processings_by_status_none_sorted (pdb : Orm.ProcessingTable)
    (ps : List ProcessingStatus) (period : Option Int) (locking : Bool) (now : Int) :
    (Orm.get_processings_by_status pdb ps period locking none none now).Pairwise
      (fun a b => a.updated_at ≤ b.updated_at) := by
  simp only [Orm.get_processings_by_status, Orm.opt_limit]
  refine List.Pairwise.imp ?_
    (List.sorted_mergeSort processing_order_trans processing_order_total _)
  intro a b hab
  simpa [Orm.processing_order, decide_eq_true_eq] using hab

/-- The processing query with any bulk size is the optional limit of the
query without one. -/
theorem processings_by_status_limit (pdb : Orm.ProcessingTable)
    (ps : List ProcessingStatus) (period : Option Int) (locking : Bool)
    (bulk_size : Option Nat) (now : Int) :
    Orm.get_processings_by_status pdb ps period locking bulk_size none now =
      Orm.opt_limit bulk_size (Orm.get_processings_by_status pdb ps period locking none none now) :=
  rfl

/-- Claim C7: the due-work queries return exactly the rows whose status is
in the requested set, whose next_poll_at is earlier than now, whose locking
is Idle when the locking filter is enabled, and whose updated_at is older
than now minus the period when a (truthy) period is given; the result is
ordered by updated_at ascending (with priority descending as tie break for
transforms) and holds at most bulk_size rows when a (truthy) bulk_size is
given, in which case it is truncated to the first bulk_size rows in that
order. -/
theorem claim_C7 (tdb : Orm.TransformTable) (ts : List TransformStatus)
    (pdb : Orm.ProcessingTable) (ps : List ProcessingStatus)
    (period : Option Int) (locking : Bool) (bulk_size : Option Nat) (now : Int) :
    (∀ r ∈ Orm.get_transforms_by_status tdb ts period locking bulk_size now,
       r ∈ tdb.rows ∧ r.status ∈ ts ∧ r.next_poll_at < now ∧
       (locking = true → r.locking = TransformLocking.Idle) ∧
       (∀ p, period = some p → p ≠ 0 → r.updated_at < now - p)) ∧
    ((bulk_size = none ∨ bulk_size = some 0) →
       ∀ r ∈ tdb.rows, r.status ∈ ts → r.next_poll_at < now →
         (locking = true → r.locking = TransformLocking.Idle) →
         (∀ p, period = some p → p ≠ 0 → r.updated_at < now - p) →
         r ∈ Orm.get_transforms_by_status tdb ts period locking bulk_size now) ∧
    (Orm.get_transforms_by_status tdb ts period locking bulk_size now).Pairwise
      (fun a b => a.updated_at < b.updated_at ∨
        (a.updated_at = b.updated_at ∧ b.priority ≤ a.priority)) ∧
    (∀ b, bulk_size = some b → b ≠ 0 →
       (Orm.get_transforms_by_status tdb ts period locking bulk_size now).length ≤ b) ∧
    (∀ r ∈ Orm.get_processings_by_status pdb ps period locking bulk_size none now,
       r ∈ pdb.rows ∧ r.status ∈ ps ∧ r.next_poll_at < now ∧
       (locking = true → r.locking = ProcessingLocking.Idle) ∧
       (∀ p, period = some p → p ≠ 0 → r.updated_at < now - p)) ∧
    ((bulk_size = none ∨ bulk_size = some 0) →
       ∀ r ∈ pdb.rows, r.status ∈ ps → r.next_poll_at < now →
         (locking = true → r.locking = ProcessingLocking.Idle) →
         (∀ p, period = some p → p ≠ 0 → r.updated_at < now - p) →
         r ∈ Orm.get_processings_by_status pdb ps period locking bulk_size none now) ∧
    (Orm.get_processings_by_status pdb ps period locking bulk_size none now).Pairwise
      (fun a b => a.updated_at ≤ b.updated_at) ∧
    (∀ b, bulk_size = some b → b ≠ 0 →
       (Orm.get_processings_by_status pdb ps period locking bulk_size none now).length ≤ b) := by
  refine ⟨?_, ?_, ?_, ?_, ?_, ?_, ?_, ?_⟩
  · intro r hr
    rw [transforms_by_status_limit] at hr
    exact (transforms_by_status_none_mem tdb ts period locking now r).mp
      (mem_opt_limit _ _ _ hr)
  · intro hb r hrow hs hpoll hlock hper
    rw [transforms_by_status_limit, opt_limit_falsy bulk_size hb]
    exact (transforms_by_status_none_mem tdb ts period locking now r).mpr
      ⟨hrow, hs, hpoll, hlock, hper⟩
  · rw [transforms_by_status_limit]
    exact opt_limit_pairwise bulk_size _ (transforms_by_status_none_sorted tdb ts period locking now)
  · intro b hb hnz
    subst hb
    rw [transforms_by_status_limit]
    exact opt_limit_length b hnz _
  · intro r hr
    rw [processings_by_status_limit] at hr
    exact (processings_by_status_none_mem pdb ps period locking now r).mp
      (mem_opt_limit _ _ _ hr)
  · intro hb r hrow hs hpoll hlock hper
    rw [processings_by_status_limit, opt_limit_falsy bulk_size hb]
    exact (processings_by_status_none_mem pdb ps period locking now r).mpr
      ⟨hrow, hs, hpoll, hlock, hper⟩
  · rw [processings_by_status_limit]
    exact opt_limit_pairwise bulk_size _ (processings_by_status_none_sorted pdb ps period locking now)
  · intro b hb hnz
    subst hb
    rw [processings_by_status_limit]
    exact opt_limit_length b hnz _

/-- Witness for claim C7: on singleton fixture tables with no period, no
locking filter and no bulk size, the due fixture rows are returned. -/
theorem claim_C7_witness :
    Fix.t_row ∈ Orm.get_transforms_by_status Fix.t_table [TransformStatus.New]
      none false none 100 ∧
    Fix.p_row ∈ Orm.get_processings_by_status Fix.p_table [ProcessingStatus.Submitted]
      none false none none 100 := by
  have h := claim_C7 Fix.t_table [TransformStatus.New] Fix.p_table
    [ProcessingStatus.Submitted] none false none 100
  refine ⟨?_, ?_⟩
  · exact h.2.1 (Or.inl rfl) Fix.t_row (by simp [Fix.t_table]) (by decide) (by decide)
      (by decide) (fun p hp => Option.noConfusion hp)
  · exact h.2.2.2.2.2.1 (Or.inl rfl) Fix.p_row (by simp [Fix.p_table]) (by decide) (by decide)
      (by decide) (fun p hp => Option.noConfusion hp)

/-- Claim C9: after add_processing, get_processing on the returned id finds
the freshly created row, whose fields are exactly the added attributes
(with substatus at its default New), provided the id sequence dominates the
existing rows as a database primary key sequence does. -/
theorem claim_C9 (db : Orm.ProcessingTable) (a : Orm.ProcessingAttrs) (now : Int)
    (h : ∀ r ∈ db.rows, r.processing_id < db.next_processing_id) :
    Orm.get_processing (Orm.add_processing db a now).2 (Orm.add_processing db a now).1 =
      .ok (some (Orm.create_processing a now db.next_processing_id)) ∧
    (Orm.create_processing a now db.next_processing_id).transform_id = a.transform_id ∧
    (Orm.create_processing a now db.next_processing_id).status = a.status ∧
    (Orm.create_processing a now db.next_processing_id).substatus = ProcessingStatus.New ∧
    (Orm.create_processing a now db.next_processing_id).locking = a.locking ∧
    (Orm.create_processing a now db.next_processing_id).submitter = a.submitter ∧
    (Orm.create_processing a now db.next_processing_id).granularity = a.granularity ∧
    (Orm.create_processing a now db.next_processing_id).granularity_type = a.granularity_type ∧
    (Orm.create_processing a now db.next_processing_id).expired_at = a.expired_at ∧
    (Orm.create_processing a now db.next_processing_id).processing_metadata = a.processing_metadata ∧
    (Orm.create_processing a now db.next_processing_id).output_metadata = a.output_metadata := by
  refine ⟨?_, rfl, rfl, rfl, rfl, rfl, rfl, rfl, rfl, rfl, rfl⟩
  have hfil : db.rows.filter (fun r => decide (r.processing_id = db.next_processing_id)) = [] := by
    rw [List.filter_eq_nil_iff]
    intro r hr
    simp only [decide_eq_true_eq]
    exact Nat.ne_of_lt (h r hr)
  simp only [Orm.get_processing, Orm.add_processing]
  rw [List.filter_append, hfil]
  simp [Orm.create_processing]

/-- Witness for claim C9: adding a processing for transform 3 to the empty
table and reading id 1 back returns the created row. -/
theorem claim_C9_witness :
    Orm.get_processing (Orm.add_processing Fix.empty_ptable { transform_id := 3 } 50).2
        (Orm.add_processing Fix.empty_ptable { transform_id := 3 } 50).1 =
      .ok (some (Orm.create_processing { transform_id := 3 } 50 1)) :=
  (claim_C9 Fix.empty_ptable { transform_id := 3 } 50 (by simp [Fix.empty_ptable])).1

/-- The terminal test of update_processing holds exactly for the three
terminal processing statuses. -/
theorem processing_stamps_finished_iff (pp : Orm.ProcessingUpdParams) :
    Orm.processing_stamps_finished pp = true ↔
      (pp.status = some ProcessingStatus.Finished ∨ pp.status = some ProcessingStatus.Failed ∨
       pp.status = some ProcessingStatus.Lost) := by
  cases hs : pp.status with
  | none => simp [Orm.processing_stamps_finished, hs]
  | some s => cases s <;> simp [Orm.processing_stamps_finished, hs]

/-- The terminal test of update_transform holds exactly for Finished and
Failed. -/
theorem transform_stamps_finished_iff (tp : Orm.TransformUpdParams) :
    Orm.transform_stamps_finished tp = true ↔
      (tp.status = some TransformStatus.Finished ∨ tp.status = some TransformStatus.Failed) := by
  cases hs : tp.status with
  | none => simp [Orm.transform_stamps_finished, hs]
  | some s => cases s <;> simp [Orm.transform_stamps_finished, hs]

/-- Claim C10: update_processing and update_transform overwrite updated_at
of every matching row with the current time and stamp finished_at exactly
when the parameters carry a terminal status of the respective set: Finished,
Failed or Lost for processings, Finished or Failed for transforms (so a
transform moved to SubFinished, Lost or Cancelled never receives
finished_at, last conjunct); every field named in the parameters is
overwritten and every other field is unchanged, and rows with another id
are untouched. -/
theorem claim_C10 (pdb : Orm.ProcessingTable) (pid : Nat) (pp : Orm.ProcessingUpdParams)
    (tdb : Orm.TransformTable) (tid : Nat) (tp : Orm.TransformUpdParams) (now : Int) :
    (∀ r ∈ pdb.rows, r.processing_id ≠ pid →
       r ∈ (Orm.update_processing pdb pid pp now).rows) ∧
    (∀ r ∈ pdb.rows, r.processing_id = pid →
       Orm.apply_processing_update pp now r ∈ (Orm.update_processing pdb pid pp now).rows ∧
       (Orm.apply_processing_update pp now r).updated_at = now ∧
       (Orm.apply_processing_update pp now r).finished_at =
         (if pp.status = some ProcessingStatus.Finished ∨
             pp.status = some ProcessingStatus.Failed ∨
             pp.status = some ProcessingStatus.Lost then some now else r.finished_at) ∧
       (Orm.apply_processing_update pp now r).status = pp.status.getD r.status ∧
       (Orm.apply_processing_update pp now r).substatus = pp.substatus.getD r.substatus ∧
       (Orm.apply_processing_update pp now r).locking = pp.locking.getD r.locking ∧
       (Orm.apply_processing_update pp now r).next_poll_at = pp.next_poll_at.getD r.next_poll_at ∧
       (Orm.apply_processing_update pp now r).expired_at = pp.expired_at.getD r.expired_at ∧
       (Orm.apply_processing_update pp now r).processing_metadata =
         pp.processing_metadata.getD r.processing_metadata ∧
       (Orm.apply_processing_update pp now r).output_metadata =
         pp.output_metadata.getD r.output_metadata ∧
       (Orm.apply_processing_update pp now r).processing_id = r.processing_id ∧
       (Orm.apply_processing_update pp now r).transform_id = r.transform_id ∧
       (Orm.apply_processing_update pp now r).submitter = r.submitter ∧
       (Orm.apply_processing_update pp now r).granularity = r.granularity ∧
       (Orm.apply_processing_update pp now r).granularity_type = r.granularity_type) ∧
    (∀ r ∈ tdb.rows, r.transform_id ≠ tid →
       r ∈ (Orm.update_transform tdb tid tp now).rows) ∧
    (∀ r ∈ tdb.rows, r.transform_id = tid →
       Orm.apply_transform_update tp now r ∈ (Orm.update_transform tdb tid tp now).rows ∧
       (Orm.apply_transform_update tp now r).updated_at = now ∧
       (Orm.apply_transform_update tp now r).finished_at =
         (if tp.status = some TransformStatus.Finished ∨
             tp.status = some TransformStatus.Failed then some now else r.finished_at) ∧
       (Orm.apply_transform_update tp now r).status = tp.status.getD r.status ∧
       (Orm.apply_transform_update tp now r).substatus = tp.substatus.getD r.substatus ∧
       (Orm.apply_transform_update tp now r).locking = tp.locking.getD r.locking ∧
       (Orm.apply_transform_update tp now r).priority = tp.priority.getD r.priority ∧
       (Orm.apply_transform_update tp now r).retries = tp.retries.getD r.retries ∧
       (Orm.apply_transform_update tp now r).next_poll_at = tp.next_poll_at.getD r.next_poll_at ∧
       (Orm.apply_transform_update tp now r).expired_at = tp.expired_at.getD r.expired_at ∧
       (Orm.apply_transform_update tp now r).transform_metadata =
         tp.transform_metadata.getD r.transform_metadata ∧
       (Orm.apply_transform_update tp now r).transform_id = r.transform_id ∧
       (Orm.apply_transform_update tp now r).transform_type = r.transform_type ∧
       (Orm.apply_transform_update tp now r).transform_tag = r.transform_tag) ∧
    (∀ r ∈ tdb.rows, (tp.status = some TransformStatus.SubFinished ∨
        tp.status = some TransformStatus.Lost ∨ tp.status = some TransformStatus.Cancelled) →
      (Orm.apply_transform_update tp now r).finished_at = r.finished_at) := by
  have hpfin : ∀ r : Orm.ProcessingRow,
      (Orm.apply_processing_update pp now r).finished_at =
        (if pp.status = some ProcessingStatus.Finished ∨
            pp.status = some ProcessingStatus.Failed ∨
            pp.status = some ProcessingStatus.Lost then some now else r.finished_at) := by
    intro r
    by_cases hc : pp.status = some ProcessingStatus.Finished ∨
        pp.status = some ProcessingStatus.Failed ∨ pp.status = some ProcessingStatus.Lost
    · rw [if_pos hc]
      simp [Orm.apply_processing_update, (processing_stamps_finished_iff pp).mpr hc]
    · rw [if_neg hc]
      have hb : Orm.processing_stamps_finished pp = false := by
        cases hfe : Orm.processing_stamps_finished pp with
        | false => rfl
        | true => exact absurd ((processing_stamps_finished_iff pp).mp hfe) hc
      simp [Orm.apply_processing_update, hb]
  have htfin : ∀ r : Orm.TransformRow,
      (Orm.apply_transform_update tp now r).finished_at =
        (if tp.status = some TransformStatus.Finished ∨
            tp.status = some TransformStatus.Failed then some now else r.finished_at) := by
    intro r
    by_cases hc : tp.status = some TransformStatus.Finished ∨
        tp.status = some TransformStatus.Failed
    · rw [if_pos hc]
      simp [Orm.apply_transform_update, (transform_stamps_finished_iff tp).mpr hc]
    · rw [if_neg hc]
      have hb : Orm.transform_stamps_finished tp = false := by
        cases hfe : Orm.transform_stamps_finished tp with
        | false => rfl
        | true => exact absurd ((transform_stamps_finished_iff tp).mp hfe) hc
      simp [Orm.apply_transform_update, hb]
  refine ⟨?_, ?_, ?_, ?_, ?_⟩
  · intro r hr hne
    have h1 := List.mem_map_of_mem
      (fun r : Orm.ProcessingRow =>
        if r.processing_id = pid then Orm.apply_processing_update pp now r else r) hr
    simp only [if_neg hne] at h1
    exact h1
  · intro r hr hid
    have h1 := List.mem_map_of_mem
      (fun r : Orm.ProcessingRow =>
        if r.processing_id = pid then Orm.apply_processing_update pp now r else r) hr
    simp only [if_pos hid] at h1
    have h2 : Orm.apply_processing_update pp now r ∈
        (Orm.update_processing pdb pid pp now).rows := h1
    exact ⟨h2, rfl, hpfin r, rfl, rfl, rfl, rfl, rfl, rfl, rfl, rfl, rfl, rfl, rfl, rfl⟩
  · intro r hr hne
    have h1 := List.mem_map_of_mem
      (fun r : Orm.TransformRow =>
        if r.transform_id = tid then Orm.apply_transform_update tp now r else r) hr
    simp only [if_neg hne] at h1
    exact h1
  · intro r hr hid
    have h1 := List.mem_map_of_mem
      (fun r : Orm.TransformRow =>
        if r.transform_id = tid then Orm.apply_transform_update tp now r else r) hr
    simp only [if_pos hid] at h1
    have h2 : Orm.apply_transform_update tp now r ∈
        (Orm.update_transform tdb tid tp now).rows := h1
    exact ⟨h2, rfl, htfin r, rfl, rfl, rfl, rfl, rfl, rfl, rfl, rfl, rfl, rfl, rfl⟩
  · intro r hr hc
    have hnc : ¬ (tp.status = some TransformStatus.Finished ∨
        tp.status = some TransformStatus.Failed) := by
      rcases hc with hc | hc | hc <;> rw [hc] <;> rintro (h | h) <;> simp at h
    rw [htfin r, if_neg hnc]

/-- Witness for claim C10: updating the fixture processing to Finished
stamps finished_at with the new time and the updated row is stored, while
updating the fixture transform to SubFinished leaves finished_at alone. -/
theorem claim_C10_witness :
    (Orm.apply_processing_update { status := some ProcessingStatus.Finished } 99 Fix.p_row).finished_at =
      some 99 ∧
    Orm.apply_processing_update { status := some ProcessingStatus.Finished } 99 Fix.p_row ∈
      (Orm.update_processing Fix.p_table 1 { status := some ProcessingStatus.Finished } 99).rows ∧
    (Orm.apply_transform_update { status := some TransformStatus.SubFinished } 99 Fix.t_row).finished_at =
      Fix.t_row.finished_at := by
  have h := claim_C10 Fix.p_table 1 { status := some ProcessingStatus.Finished }
    Fix.t_table 1 { status := some TransformStatus.SubFinished } 99
  obtain ⟨-, h2, -, -, h5⟩ := h
  have hp := h2 Fix.p_row (by simp [Fix.p_table]) rfl
  refine ⟨?_, hp.1, ?_⟩
  · rw [hp.2.2.1]
    simp
  · exact h5 Fix.t_row (by simp [Fix.t_table]) (Or.inl rfl)
